import Mathlib

/-!
Verification of the RobloxAccountManager core (src/RAMN.py) against its
natural-language specification.

Python strings are modelled as `List Char`, Python `None`-able strings as
`Option (List Char)`, and SQLite tables as Lean lists of row structures.
The external Fernet cipher (from the `cryptography` package) is modelled
abstractly: the functions `_enc` / `_dec` below take the library's
`encrypt` / `decrypt` operations as parameters, and theorems assume only
the library's documented contract (round-trip, and the token format
version byte 0x80 followed by a 64-bit big-endian timestamp, whose
base64url encoding begins with the characters gAAAA for any realistic
clock value below 2^42 seconds).
-/

/-- Python `str` values are modelled as lists of characters. -/
abbrev Chars := List Char

/- ### Secret cipher: `_is_enc`, `_enc`, `_dec` (src/RAMN.py lines 140-165) -/

/-- The heuristic marker checked by `_is_enc`: Fernet tokens start with
the characters gAAAA (source comment, line 143). -/
def encMarker : Chars := ['g', 'A', 'A', 'A', 'A']

/-- `_is_enc(val)` from src/RAMN.py lines 140-144: `None` and the empty
string are not encrypted (`if not val: return False`); otherwise test
`val.startswith("gAAAA")`. -/
def _is_enc : Option Chars → Bool
  | none => false
  | some v => if v.isEmpty then false else encMarker.isPrefixOf v

/-- `_enc(val)` from src/RAMN.py lines 146-153, with the Fernet library's
`encrypt` passed in as `encryptF`.  `None` maps to `None`; otherwise the
library encrypts the UTF-8 bytes (`Fernet.encrypt` does not raise on any
byte string, so the `except` branch returning `val` is unreachable). -/
def _enc (encryptF : Chars → Chars) : Option Chars → Option Chars
  | none => none
  | some v => some (encryptF v)

/-- `_dec(val)` from src/RAMN.py lines 155-165, with the Fernet library's
`decrypt` passed in as `decryptF` (returning `none` where the library
raises).  `None` maps to `None`; a value matching the marker is decrypted,
and on a decryption exception the `except` clause returns `val` unchanged;
a value not matching the marker is returned unchanged. -/
def _dec (decryptF : Chars → Option Chars) : Option Chars → Option Chars
  | none => none
  | some v =>
    if _is_enc (some v) then
      match decryptF v with
      | some p => some p
      | none => some v
    else some v

/- Toy Fernet instance used to witness satisfiability of the library
contract: the token is the marker followed by the plaintext followed by a
one-character authentication tag Z; decryption checks the marker and the
tag. -/

/-- Toy model of `Fernet.encrypt`: marker, then plaintext, then tag. -/
def toyEncrypt (s : Chars) : Chars := 'g' :: 'A' :: 'A' :: 'A' :: 'A' :: (s ++ ['Z'])

/-- Toy model of `Fernet.decrypt`: requires the marker and a valid tag,
otherwise fails (returns `none`, modelling an `InvalidToken` exception). -/
def toyDecrypt (t : Chars) : Option Chars :=
  match t with
  | 'g' :: 'A' :: 'A' :: 'A' :: 'A' :: rest =>
    if rest.getLast? = some 'Z' then some rest.dropLast else none
  | _ => none

lemma toyEncrypt_marker (s : Chars) : _is_enc (some (toyEncrypt s)) = true := by
  simp [_is_enc, toyEncrypt, encMarker, List.isPrefixOf]

lemma toyDecrypt_toyEncrypt (s : Chars) : toyDecrypt (toyEncrypt s) = some s := by
  simp [toyDecrypt, toyEncrypt]

/-- Claim C1: for every plaintext string `s`, decrypting the token produced
by encrypting `s` (with the same process-wide key) returns `s`:
`_dec(_enc(s)) == s`.  The hypotheses are the Fernet library's contract:
its tokens begin with the gAAAA marker, and decryption inverts
encryption under the same key. -/
theorem enc_dec_roundtrip (encryptF : Chars → Chars) (decryptF : Chars → Option Chars)
    (hmarker : ∀ s, _is_enc (some (encryptF s)) = true)
    (hround : ∀ s, decryptF (encryptF s) = some s) (s : Chars) :
    _dec decryptF (_enc encryptF (some s)) = some s := by
  simp only [_enc, _dec, hmarker s, if_true, hround s]

/-- Witness for C1 at the concrete plaintext "hi", with the toy Fernet
instance discharging the library-contract hypotheses. -/
theorem enc_dec_roundtrip_witness :
    _dec toyDecrypt (_enc toyEncrypt (some ['h', 'i'])) = some ['h', 'i'] :=
  enc_dec_roundtrip toyEncrypt toyDecrypt toyEncrypt_marker toyDecrypt_toyEncrypt ['h', 'i']

/-- Claim C5: for every string `v` that does not match the encrypted-format
marker (including the empty string), `_dec` returns `v` unchanged, for any
decryption function. -/
theorem dec_passthrough (decryptF : Chars → Option Chars) (v : Chars)
    (h : _is_enc (some v) = false) : _dec decryptF (some v) = some v := by
  simp only [_dec, h, Bool.false_eq_true, if_false]

/-- Witness for C5: the empty string and a non-marker string pass through
unchanged. -/
theorem dec_passthrough_witness :
    (_is_enc (some []) = false ∧ _dec toyDecrypt (some []) = some []) ∧
      (_is_enc (some ['h', 'i']) = false ∧ _dec toyDecrypt (some ['h', 'i']) = some ['h', 'i']) :=
  ⟨⟨by decide, dec_passthrough toyDecrypt [] (by decide)⟩,
   ⟨by decide, dec_passthrough toyDecrypt ['h', 'i'] (by decide)⟩⟩

/-- Claim C3 (behaviour the code actually has, contradicting the claim):
for every token `v` that matches the encrypted-format marker but fails
authenticated decryption (`decryptF v = none`, the library raising
`InvalidToken`), `_dec` returns the undecryptable token `v` unchanged —
exactly the passthrough behaviour, with no detectable failure signal. -/
theorem dec_corrupted_returns_token_unchanged (decryptF : Chars → Option Chars) (v : Chars)
    (hmark : _is_enc (some v) = true) (hfail : decryptF v = none) :
    _dec decryptF (some v) = some v := by
  simp only [_dec, hmark, if_true, hfail]

/-- Witness for C3's code-behaviour theorem: the toy-encrypted token for
"hi" with its final (tag) character corrupted from Z to Q still matches
the marker, fails authenticated decryption, and is returned unchanged. -/
theorem dec_corrupted_returns_token_unchanged_witness :
    (_is_enc (some ['g', 'A', 'A', 'A', 'A', 'h', 'i', 'Q']) = true ∧
        toyDecrypt ['g', 'A', 'A', 'A', 'A', 'h', 'i', 'Q'] = none) ∧
      _dec toyDecrypt (some ['g', 'A', 'A', 'A', 'A', 'h', 'i', 'Q']) =
        some ['g', 'A', 'A', 'A', 'A', 'h', 'i', 'Q'] :=
  ⟨⟨by decide, by decide⟩,
   dec_corrupted_returns_token_unchanged toyDecrypt ['g', 'A', 'A', 'A', 'A', 'h', 'i', 'Q']
     (by decide) (by decide)⟩

/- ### Account/Group store (src/RAMN.py: create_table lines 1404-1437,
group operations lines 1686-1857) -/

/-- A row of the `accounts` table: `username TEXT PRIMARY KEY`, `alias
TEXT`, `profile_path TEXT`, plus the migrated columns `roblosecurity TEXT`
and `group_id INTEGER REFERENCES groups(id)`. -/
structure AccountRow where
  username : Chars
  alias_text : Option Chars
  profile_path : Option Chars
  roblosecurity : Option Chars
  group_id : Option Nat
deriving DecidableEq, Repr

/-- A row of the `groups` table: `id INTEGER PRIMARY KEY AUTOINCREMENT`,
`name TEXT UNIQUE`. -/
structure GroupRow where
  id : Nat
  name : Chars
deriving DecidableEq, Repr

/-- The migrated database: the `accounts` and `groups` tables, plus the
`sqlite_sequence` counter `gseq` backing the AUTOINCREMENT id column of
`groups` (always at least every existing id; never reused after a
delete). -/
structure DB where
  accounts : List AccountRow
  groups : List GroupRow
  gseq : Nat
deriving DecidableEq, Repr

/-- Errors surfaced by store operations.  `duplicateName` models the
`sqlite3.IntegrityError` raised by the `UNIQUE` constraint on
`groups.name` and caught in `_create_group_from_menu`. -/
inductive StoreError where
  | duplicateName
deriving DecidableEq, Repr

/-- `_create_group_from_menu` (src/RAMN.py lines 1686-1705), database
effect: with a stripped nonempty `name` entered in the dialog, execute
`INSERT INTO groups(name) VALUES(?)` in a transaction.  A name colliding
with the `UNIQUE` constraint raises `IntegrityError`; the transaction
rolls back and the error is reported, leaving the store unchanged.
Returns the reported error (if any) together with the resulting store. -/
def _create_group_from_menu (name : Chars) (db : DB) : Option StoreError × DB :=
  if name.isEmpty then (none, db)
  else if db.groups.any (fun g => g.name = name) then (some .duplicateName, db)
  else
    (none, { db with groups := db.groups ++ [⟨db.gseq + 1, name⟩], gseq := db.gseq + 1 })

/-- First statement of `_delete_group`'s transaction (src/RAMN.py line
1826): `UPDATE accounts SET group_id=NULL WHERE group_id=?`. -/
def _delete_group_stmt1 (gid : Nat) (db : DB) : DB :=
  { db with
    accounts := db.accounts.map fun a =>
      if a.group_id = some gid then { a with group_id := none } else a }

/-- Second statement of `_delete_group`'s transaction (src/RAMN.py line
1827): `DELETE FROM groups WHERE id=?`. -/
def _delete_group_stmt2 (gid : Nat) (db : DB) : DB :=
  { db with groups := db.groups.filter fun g => g.id ≠ gid }

/-- `_delete_group` (src/RAMN.py lines 1799-1834), database effect for a
stored group id `gid` (the Ungrouped sentinel, `group_id is None`, is
rejected before reaching the database): one transaction that first moves
member accounts to NULL and then deletes the group row. -/
def _delete_group (gid : Nat) (db : DB) : DB :=
  _delete_group_stmt2 gid (_delete_group_stmt1 gid db)

/-- The sequence of database states passed through while `_delete_group`'s
transaction executes, statement by statement, starting from the initial
state. -/
def _delete_group_states (gid : Nat) (db : DB) : List DB :=
  [db, _delete_group_stmt1 gid db, _delete_group_stmt2 gid (_delete_group_stmt1 gid db)]

/-- Referential integrity of the group reference: every account's
`group_id`, when set, names an existing row of `groups`. -/
def refIntegrity (db : DB) : Bool :=
  db.accounts.all fun a =>
    match a.group_id with
    | none => true
    | some g => db.groups.any fun gr => gr.id = g

/- ### Tree reconciliation: `_sync_groups_from_tree`
(src/RAMN.py lines 1836-1857) -/

/-- The presented hierarchy: each top-level tree item is a group node
carrying its group id data (`None` for the Ungrouped node) and its
account children's usernames, in order. -/
abbrev AccountTree := List (Option Nat × List Chars)

/-- The `updates` list built by `_sync_groups_from_tree` (lines
1838-1847): one `(group_id, username)` pair per account child of each
top-level group node, in tree order. -/
def sync_updates (tree : AccountTree) : List (Option Nat × Chars) :=
  tree.flatMap fun node => node.2.map fun u => (node.1, u)

/-- The row-level effect of one `UPDATE accounts SET group_id=? WHERE
username=?` (or `=NULL`, lines 1852-1855) on one account row. -/
def updRow (a : AccountRow) (p : Option Nat × Chars) : AccountRow :=
  if a.username = p.2 then { a with group_id := p.1 } else a

/-- One `UPDATE accounts SET group_id=? WHERE username=?` statement
applied to the store. -/
def apply_update (db : DB) (p : Option Nat × Chars) : DB :=
  { db with accounts := db.accounts.map fun a => updRow a p }

/-- `_sync_groups_from_tree` (src/RAMN.py lines 1836-1857), database
effect: build the updates list; if it is empty return without touching
the database, otherwise execute every update inside a single
transaction. -/
def _sync_groups_from_tree (tree : AccountTree) (db : DB) : DB :=
  let updates := sync_updates tree
  if updates.isEmpty then db
  else updates.foldl apply_update db

/-- The sequence of committed (reader-observable) database states of
`_sync_groups_from_tree`: the source wraps all the updates in one `with
self.conn:` transaction, so the only committed states are the initial one
and (when any update is issued) the final one. -/
def _sync_groups_committed_states (tree : AccountTree) (db : DB) : List DB :=
  let updates := sync_updates tree
  if updates.isEmpty then [db]
  else [db, updates.foldl apply_update db]

/- ### Helper lemmas about the reconciliation fold -/

lemma updRow_fields (a : AccountRow) (p : Option Nat × Chars) :
    (updRow a p).username = a.username ∧ (updRow a p).alias_text = a.alias_text ∧
      (updRow a p).profile_path = a.profile_path ∧
      (updRow a p).roblosecurity = a.roblosecurity := by
  unfold updRow; split <;> exact ⟨rfl, rfl, rfl, rfl⟩

lemma foldl_updRow_fields (ups : List (Option Nat × Chars)) (a : AccountRow) :
    (ups.foldl updRow a).username = a.username ∧
      (ups.foldl updRow a).alias_text = a.alias_text ∧
      (ups.foldl updRow a).profile_path = a.profile_path ∧
      (ups.foldl updRow a).roblosecurity = a.roblosecurity := by
  induction ups generalizing a with
  | nil => exact ⟨rfl, rfl, rfl, rfl⟩
  | cons p ups ih =>
    have h1 := updRow_fields a p
    have h2 := ih (updRow a p)
    exact ⟨h2.1.trans h1.1, h2.2.1.trans h1.2.1, h2.2.2.1.trans h1.2.2.1,
      h2.2.2.2.trans h1.2.2.2⟩

lemma foldl_updRow_not_mem (ups : List (Option Nat × Chars)) (a : AccountRow)
    (h : a.username ∉ ups.map Prod.snd) : ups.foldl updRow a = a := by
  induction ups generalizing a with
  | nil => rfl
  | cons p ups ih =>
    simp only [List.map_cons, List.mem_cons, not_or] at h
    have hstep : updRow a p = a := by unfold updRow; simp [h.1]
    simp only [List.foldl_cons, hstep]
    exact ih a h.2

lemma foldl_updRow_nodup_mem (ups : List (Option Nat × Chars)) (a : AccountRow)
    (g : Option Nat) (u : Chars) (hmem : (g, u) ∈ ups)
    (hnd : (ups.map Prod.snd).Nodup) (ha : a.username = u) :
    (ups.foldl updRow a).group_id = g := by
  induction ups generalizing a with
  | nil => cases hmem
  | cons p ups ih =>
    simp only [List.map_cons, List.nodup_cons] at hnd
    rcases List.mem_cons.mp hmem with heq | hmem'
    · have hstep : updRow a p = { a with group_id := g } := by
        unfold updRow; rw [← heq]; simp [ha, ← heq]
      have hnot : ({ a with group_id := g } : AccountRow).username ∉ ups.map Prod.snd := by
        show a.username ∉ ups.map Prod.snd
        rw [ha]
        have : p.2 = u := by rw [← heq]
        exact this ▸ hnd.1
      simp only [List.foldl_cons, hstep, foldl_updRow_not_mem ups _ hnot]
    · have hu : u ∈ ups.map Prod.snd := by
        exact List.mem_map.mpr ⟨(g, u), hmem', rfl⟩
      have hne : a.username ≠ p.2 := by
        rw [ha]; intro e; exact hnd.1 (e ▸ hu)
      have hstep : updRow a p = a := by unfold updRow; simp [hne]
      simp only [List.foldl_cons, hstep]
      exact ih a hmem' hnd.2 ha

lemma foldl_apply_update_spec (ups : List (Option Nat × Chars)) (db : DB) :
    ups.foldl apply_update db
      = { db with accounts := db.accounts.map fun a => ups.foldl updRow a } := by
  induction ups generalizing db with
  | nil => simp
  | cons p ups ih =>
    simp only [List.foldl_cons]
    rw [ih]
    simp [apply_update, List.map_map, Function.comp]

/-- Claim C2: after `_sync_groups_from_tree` runs over a presented
hierarchy (in which each account item appears at most once, hence the
`Nodup` hypothesis on the collected usernames), every account appearing
as a child of some group node has its stored `group_id` equal to that
node's group id — `none` (NULL) for children of the Ungrouped node — and
the whole batch commits in a single transaction, so the committed states
a reader can observe are at most the initial and the final one. -/
theorem sync_groups_from_tree_correct (tree : AccountTree) (db : DB)
    (hnodup : ((sync_updates tree).map Prod.snd).Nodup) :
    (∀ node ∈ tree, ∀ u ∈ node.2, ∀ a ∈ (_sync_groups_from_tree tree db).accounts,
        a.username = u → a.group_id = node.1) ∧
      (_sync_groups_committed_states tree db).length ≤ 2 := by
  constructor
  · intro node hnode u hu a ha hau
    have hmem : (node.1, u) ∈ sync_updates tree := by
      unfold sync_updates
      exact List.mem_flatMap.mpr ⟨node, hnode, List.mem_map.mpr ⟨u, hu, rfl⟩⟩
    have hne : (sync_updates tree).isEmpty = false := by
      cases h : sync_updates tree with
      | nil => rw [h] at hmem; cases hmem
      | cons x xs => rfl
    rw [_sync_groups_from_tree, hne] at ha
    simp only [Bool.false_eq_true, if_false, foldl_apply_update_spec] at ha
    obtain ⟨a0, ha0, rfl⟩ := List.mem_map.mp ha
    have hu0 : a0.username = u := by
      rw [← (foldl_updRow_fields (sync_updates tree) a0).1]; exact hau
    exact foldl_updRow_nodup_mem (sync_updates tree) a0 node.1 u hmem hnodup hu0
  · rw [_sync_groups_committed_states]
    split <;> simp

/-- Sample data for witnesses: account "alice" in group 1, account "bob"
ungrouped, one group "Main" with id 1. -/
def sampleAcct1 : AccountRow :=
  { username := "alice".toList, alias_text := none, profile_path := none,
    roblosecurity := none, group_id := some 1 }

/-- Sample ungrouped account "bob". -/
def sampleAcct2 : AccountRow :=
  { username := "bob".toList, alias_text := some "b".toList, profile_path := none,
    roblosecurity := none, group_id := none }

/-- Sample store holding the two sample accounts and group "Main". -/
def sampleDB : DB :=
  { accounts := [sampleAcct1, sampleAcct2], groups := [⟨1, "Main".toList⟩], gseq := 1 }

/-- Sample presented hierarchy: "bob" now sits under group 1, the
Ungrouped node is empty, and "alice" does not appear anywhere. -/
def sampleTree : AccountTree := [(some 1, ["bob".toList]), (none, [])]

/-- The row for "bob" after reconciliation against `sampleTree`. -/
def sampleBobAfter : AccountRow :=
  { username := "bob".toList, alias_text := some "b".toList, profile_path := none,
    roblosecurity := none, group_id := some 1 }

/-- Witness for C2 on the sample store: "bob", presented under group 1,
ends up stored with `group_id = some 1`, and at most two committed states
are observable. -/
theorem sync_groups_from_tree_correct_witness :
    (sampleBobAfter ∈ (_sync_groups_from_tree sampleTree sampleDB).accounts ∧
        sampleBobAfter.group_id = some 1) ∧
      (_sync_groups_committed_states sampleTree sampleDB).length ≤ 2 := by
  have h := sync_groups_from_tree_correct sampleTree sampleDB (by decide)
  refine ⟨⟨by decide, ?_⟩, h.2⟩
  exact h.1 (some 1, ["bob".toList]) (by decide) "bob".toList (by decide)
    sampleBobAfter (by decide) (by decide)

/-- Claim C10: `_sync_groups_from_tree` modifies only the `group_id`
column — the stored usernames, aliases, secrets and profile paths are
unchanged column-wise and row-for-row — the `groups` table is untouched,
and any account row whose username does not appear anywhere in the
presented structure is left entirely unchanged (in particular it keeps
its prior `group_id` and is not deleted). -/
theorem sync_groups_from_tree_frame (tree : AccountTree) (db : DB) :
    ((_sync_groups_from_tree tree db).groups = db.groups) ∧
      ((_sync_groups_from_tree tree db).gseq = db.gseq) ∧
      ((_sync_groups_from_tree tree db).accounts.map AccountRow.username
          = db.accounts.map AccountRow.username) ∧
      ((_sync_groups_from_tree tree db).accounts.map AccountRow.alias_text
          = db.accounts.map AccountRow.alias_text) ∧
      ((_sync_groups_from_tree tree db).accounts.map AccountRow.roblosecurity
          = db.accounts.map AccountRow.roblosecurity) ∧
      ((_sync_groups_from_tree tree db).accounts.map AccountRow.profile_path
          = db.accounts.map AccountRow.profile_path) ∧
      (∀ a ∈ db.accounts, a.username ∉ (sync_updates tree).map Prod.snd →
        a ∈ (_sync_groups_from_tree tree db).accounts) := by
  have he : _sync_groups_from_tree tree db
      = if (sync_updates tree).isEmpty then db
        else (sync_updates tree).foldl apply_update db := rfl
  by_cases hne : (sync_updates tree).isEmpty = true
  · rw [he, if_pos hne]
    exact ⟨rfl, rfl, rfl, rfl, rfl, rfl, fun a ha _ => ha⟩
  · rw [he, if_neg hne, foldl_apply_update_spec]
    refine ⟨rfl, rfl, ?_, ?_, ?_, ?_, ?_⟩
    · show (db.accounts.map fun a => (sync_updates tree).foldl updRow a).map AccountRow.username
        = db.accounts.map AccountRow.username
      rw [List.map_map]
      exact List.map_congr_left fun a _ =>
        (foldl_updRow_fields (sync_updates tree) a).1
    · show (db.accounts.map fun a => (sync_updates tree).foldl updRow a).map AccountRow.alias_text
        = db.accounts.map AccountRow.alias_text
      rw [List.map_map]
      exact List.map_congr_left fun a _ =>
        (foldl_updRow_fields (sync_updates tree) a).2.1
    · show (db.accounts.map fun a => (sync_updates tree).foldl updRow a).map AccountRow.roblosecurity
        = db.accounts.map AccountRow.roblosecurity
      rw [List.map_map]
      exact List.map_congr_left fun a _ =>
        (foldl_updRow_fields (sync_updates tree) a).2.2.2
    · show (db.accounts.map fun a => (sync_updates tree).foldl updRow a).map AccountRow.profile_path
        = db.accounts.map AccountRow.profile_path
      rw [List.map_map]
      exact List.map_congr_left fun a _ =>
        (foldl_updRow_fields (sync_updates tree) a).2.2.1
    · intro a ha hnot
      have : (sync_updates tree).foldl updRow a = a :=
        foldl_updRow_not_mem (sync_updates tree) a hnot
      exact this ▸ List.mem_map.mpr ⟨a, ha, rfl⟩

/-- Witness for C10 on the sample store: "alice" does not appear in the
presented hierarchy and her row (including `group_id = some 1`) is left
unchanged; the username column is unchanged as a whole. -/
theorem sync_groups_from_tree_frame_witness :
    ((_sync_groups_from_tree sampleTree sampleDB).accounts.map AccountRow.username
        = sampleDB.accounts.map AccountRow.username) ∧
      (sampleAcct1.username ∉ (sync_updates sampleTree).map Prod.snd) ∧
      sampleAcct1 ∈ (_sync_groups_from_tree sampleTree sampleDB).accounts := by
  have h := sync_groups_from_tree_frame sampleTree sampleDB
  exact ⟨h.2.2.1, by decide, h.2.2.2.2.2.2 sampleAcct1 (by decide) (by decide)⟩

/-- `refIntegrity` spelled out as a proposition. -/
lemma refIntegrity_iff (db : DB) :
    refIntegrity db = true ↔
      ∀ a ∈ db.accounts, ∀ g, a.group_id = some g → ∃ gr ∈ db.groups, gr.id = g := by
  unfold refIntegrity
  rw [List.all_eq_true]
  constructor
  · intro h a ha g hg
    have h2 := h a ha
    rw [hg] at h2
    have h3 : (db.groups.any fun gr => gr.id = g) = true := h2
    obtain ⟨gr, hgr, hp⟩ := List.any_eq_true.mp h3
    exact ⟨gr, hgr, of_decide_eq_true hp⟩
  · intro h a ha
    cases hg : a.group_id with
    | none => rfl
    | some g =>
      show (db.groups.any fun gr => gr.id = g) = true
      obtain ⟨gr, hgr, hid⟩ := h a ha g hg
      exact List.any_eq_true.mpr ⟨gr, hgr, decide_eq_true hid⟩

/-- Claim C4: after `_delete_group gid` on a store satisfying referential
integrity, the group row is gone, no account row references `gid`, every
account that referenced `gid` before now has a NULL group reference while
every other account row is untouched, the account rows themselves are
preserved, and — because the member reassignment statement runs before
the row deletion inside the transaction — referential integrity holds at
every statement boundary the transaction passes through. -/
theorem delete_group_correct (gid : Nat) (db : DB) (hint : refIntegrity db = true) :
    (∀ s ∈ _delete_group_states gid db, refIntegrity s = true) ∧
      (∀ g ∈ (_delete_group gid db).groups, g.id ≠ gid) ∧
      (∀ a ∈ (_delete_group gid db).accounts, a.group_id ≠ some gid) ∧
      (∀ a ∈ db.accounts, a.group_id = some gid →
        { a with group_id := none } ∈ (_delete_group gid db).accounts) ∧
      (∀ a ∈ db.accounts, a.group_id ≠ some gid → a ∈ (_delete_group gid db).accounts) ∧
      ((_delete_group gid db).accounts.map AccountRow.username
        = db.accounts.map AccountRow.username) := by
  have hP := (refIntegrity_iff db).mp hint
  refine ⟨?_, ?_, ?_, ?_, ?_, ?_⟩
  · intro s hs
    have hs' : s = db ∨ s = _delete_group_stmt1 gid db ∨
        s = _delete_group_stmt2 gid (_delete_group_stmt1 gid db) := by
      simpa [_delete_group_states] using hs
    rcases hs' with rfl | rfl | rfl
    · exact hint
    · refine (refIntegrity_iff _).mpr ?_
      intro a ha g hg
      have ha' : a ∈ db.accounts.map fun a0 =>
          if a0.group_id = some gid then { a0 with group_id := none } else a0 := ha
      obtain ⟨a0, ha0, rfl⟩ := List.mem_map.mp ha'
      by_cases h0 : a0.group_id = some gid
      · rw [if_pos h0] at hg
        cases hg
      · rw [if_neg h0] at hg
        obtain ⟨gr, hgr, hid⟩ := hP a0 ha0 g hg
        exact ⟨gr, hgr, hid⟩
    · refine (refIntegrity_iff _).mpr ?_
      intro a ha g hg
      have ha' : a ∈ db.accounts.map fun a0 =>
          if a0.group_id = some gid then { a0 with group_id := none } else a0 := ha
      obtain ⟨a0, ha0, rfl⟩ := List.mem_map.mp ha'
      by_cases h0 : a0.group_id = some gid
      · rw [if_pos h0] at hg
        cases hg
      · rw [if_neg h0] at hg
        obtain ⟨gr, hgr, hid⟩ := hP a0 ha0 g hg
        have hgne : g ≠ gid := by
          intro e
          exact h0 (by rw [hg, e])
        refine ⟨gr, ?_, hid⟩
        show gr ∈ db.groups.filter fun g0 => g0.id ≠ gid
        exact List.mem_filter.mpr ⟨hgr, decide_eq_true (by rw [hid]; exact hgne)⟩
  · intro g hg
    have hg' : g ∈ db.groups.filter fun g0 => g0.id ≠ gid := hg
    exact of_decide_eq_true (List.mem_filter.mp hg').2
  · intro a ha
    have ha' : a ∈ db.accounts.map fun a0 =>
        if a0.group_id = some gid then { a0 with group_id := none } else a0 := ha
    obtain ⟨a0, ha0, rfl⟩ := List.mem_map.mp ha'
    by_cases h0 : a0.group_id = some gid
    · rw [if_pos h0]
      intro e
      cases e
    · rw [if_neg h0]
      exact h0
  · intro a ha hg
    show { a with group_id := none } ∈ db.accounts.map fun a0 =>
      if a0.group_id = some gid then { a0 with group_id := none } else a0
    refine List.mem_map.mpr ⟨a, ha, ?_⟩
    rw [if_pos hg]
  · intro a ha hg
    show a ∈ db.accounts.map fun a0 =>
      if a0.group_id = some gid then { a0 with group_id := none } else a0
    refine List.mem_map.mpr ⟨a, ha, ?_⟩
    rw [if_neg hg]
  · show ((db.accounts.map fun a0 =>
        if a0.group_id = some gid then { a0 with group_id := none } else a0).map
          AccountRow.username) = db.accounts.map AccountRow.username
    rw [List.map_map]
    refine List.map_congr_left fun a _ => ?_
    show (if a.group_id = some gid then { a with group_id := none } else a).username
      = a.username
    split <;> rfl

/-- Witness for C4 on the sample store (deleting group 1): the initial
store satisfies referential integrity, "alice" (formerly in group 1) is
stored ungrouped afterwards, and integrity also holds at the
intra-transaction state after the reassignment statement. -/
theorem delete_group_correct_witness :
    (refIntegrity sampleDB = true ∧
        { sampleAcct1 with group_id := none } ∈ (_delete_group 1 sampleDB).accounts) ∧
      refIntegrity (_delete_group_stmt1 1 sampleDB) = true :=
  ⟨⟨by decide,
    (delete_group_correct 1 sampleDB (by decide)).2.2.2.1 sampleAcct1 (by decide) (by decide)⟩,
   (delete_group_correct 1 sampleDB (by decide)).1 (_delete_group_stmt1 1 sampleDB) (by decide)⟩

/-- Claim C7: creating a group whose (nonempty, stripped) name already
exists among the stored groups fails with the DuplicateName condition and
returns the store unchanged: the existing group row is unmodified and no
new row is added. -/
theorem create_group_duplicate (name : Chars) (db : DB) (g : GroupRow)
    (hne : name ≠ []) (hg : g ∈ db.groups) (hgname : g.name = name) :
    _create_group_from_menu name db = (some .duplicateName, db) := by
  have h1 : name.isEmpty = false := by
    cases name with
    | nil => exact absurd rfl hne
    | cons c cs => rfl
  have hany : (db.groups.any fun gr => gr.name = name) = true :=
    List.any_eq_true.mpr ⟨g, hg, decide_eq_true hgname⟩
  simp [_create_group_from_menu, h1, hany]

/-- Witness for C7: creating "Main" on the sample store, which already
has a group named "Main", reports the duplicate and leaves the store
unchanged. -/
theorem create_group_duplicate_witness :
    _create_group_from_menu "Main".toList sampleDB = (some .duplicateName, sampleDB) :=
  create_group_duplicate "Main".toList sampleDB ⟨1, "Main".toList⟩ (by decide) (by decide)
    (by decide)

/- ### Startup migration: `migrate_table` (src/RAMN.py lines 1439-1488) -/

/-- The two observable schemas of the `groups` table: the legacy unkeyed
`groups(name)` and the surrogate-keyed `groups(id, name)` (with its
AUTOINCREMENT sequence value). -/
inductive GroupsTable where
  | legacy (names : List Chars)
  | keyed (rows : List GroupRow) (seq : Nat)
deriving DecidableEq, Repr

/-- The store as `migrate_table` sees it: the column list of `accounts`
(as reported by `PRAGMA table_info`), the `groups` table in whichever
schema it currently has, and the account rows (absent columns read as
NULL). -/
structure MigDB where
  account_cols : List String
  groups_table : GroupsTable
  accounts : List AccountRow
deriving DecidableEq, Repr

/-- `ALTER TABLE accounts ADD COLUMN c`, guarded by the `PRAGMA
table_info` membership test (src/RAMN.py lines 1442-1452). -/
def add_col (cols : List String) (c : String) : List String :=
  if cols.contains c then cols else cols ++ [c]

/-- `SELECT DISTINCT name FROM groups`: the distinct names in first-scan
order; `seen` accumulates the names already emitted. -/
def distinctNames (seen : List Chars) : List Chars → List Chars
  | [] => []
  | n :: rest =>
    if n ∈ seen then distinctNames seen rest
    else n :: distinctNames (n :: seen) rest

/-- `INSERT INTO groups_new(name) ...`: assign AUTOINCREMENT surrogate
keys, starting from `start`, to a list of names in order. -/
def withIds (start : Nat) : List Chars → List GroupRow
  | [] => []
  | n :: rest => ⟨start, n⟩ :: withIds (start + 1) rest

/-- The `groups` schema upgrade of `migrate_table` (src/RAMN.py lines
1454-1470): a legacy `groups(name)` table is rebuilt as `groups_new(id,
name)` from its distinct names and renamed; an already-keyed table is
left alone. -/
def migrate_groups : GroupsTable → GroupsTable
  | .legacy names => .keyed (withIds 1 (distinctNames [] names)) (distinctNames [] names).length
  | .keyed rows seq => .keyed rows seq

/-- Python truthiness of an optional string: `None` and the empty string
are falsy. -/
def cookie_truthy : Option Chars → Bool
  | none => false
  | some c => !c.isEmpty

/-- The per-row effect of the bulk encryption pass (src/RAMN.py lines
1474-1485): `new_cookie = _enc(cookie) if cookie and not _is_enc(cookie)
else cookie`; the alias is kept as plain text (`new_alias = alias`), and
a row is rewritten only when something changed (same resulting table
either way). -/
def migrate_cookie (encryptF : Chars → Chars) (a : AccountRow) : AccountRow :=
  { a with
    roblosecurity :=
      if cookie_truthy a.roblosecurity && !_is_enc a.roblosecurity then
        _enc encryptF a.roblosecurity
      else a.roblosecurity }

/-- `migrate_table` (src/RAMN.py lines 1439-1488): add the
`roblosecurity` and `group_id` columns if absent, upgrade a legacy
`groups` table to the keyed schema, then encrypt every stored secret not
already in encrypted-token format. -/
def migrate_table (encryptF : Chars → Chars) (db : MigDB) : MigDB :=
  { account_cols := add_col (add_col db.account_cols "roblosecurity") "group_id",
    groups_table := migrate_groups db.groups_table,
    accounts := db.accounts.map (migrate_cookie encryptF) }

lemma add_col_contains (cols : List String) (c : String) :
    (add_col cols c).contains c = true := by
  unfold add_col
  by_cases h : cols.contains c = true
  · rw [if_pos h]; exact h
  · rw [if_neg h]; simp

lemma add_col_contains_mono (cols : List String) (c c' : String)
    (h : cols.contains c = true) : (add_col cols c').contains c = true := by
  unfold add_col
  by_cases h2 : cols.contains c' = true
  · rw [if_pos h2]; exact h
  · rw [if_neg h2]
    simp at h ⊢
    exact Or.inl h

lemma add_col_of_contains (cols : List String) (c : String)
    (h : cols.contains c = true) : add_col cols c = cols := by
  unfold add_col
  rw [if_pos h]

lemma migrate_cookie_of_cond_false (encryptF : Chars → Chars) (a : AccountRow)
    (h : (cookie_truthy a.roblosecurity && !_is_enc a.roblosecurity) = false) :
    migrate_cookie encryptF a = a := by
  unfold migrate_cookie
  rw [h]
  rfl

lemma migrate_cookie_idem (encryptF : Chars → Chars)
    (hpref : ∀ s, _is_enc (some (encryptF s)) = true) (a : AccountRow) :
    migrate_cookie encryptF (migrate_cookie encryptF a) = migrate_cookie encryptF a := by
  by_cases hcond : (cookie_truthy a.roblosecurity && !_is_enc a.roblosecurity) = true
  · cases hr : a.roblosecurity with
    | none => rw [hr] at hcond; exact absurd hcond (by decide)
    | some c =>
      have h1 : migrate_cookie encryptF a = { a with roblosecurity := some (encryptF c) } := by
        unfold migrate_cookie
        rw [hcond, hr]
        rfl
      rw [h1]
      apply migrate_cookie_of_cond_false
      show (cookie_truthy (some (encryptF c)) && !_is_enc (some (encryptF c))) = false
      rw [hpref c]
      simp
  · have hf : (cookie_truthy a.roblosecurity && !_is_enc a.roblosecurity) = false := by
      cases h : (cookie_truthy a.roblosecurity && !_is_enc a.roblosecurity) with
      | false => rfl
      | true => exact absurd h hcond
    have h1 := migrate_cookie_of_cond_false encryptF a hf
    rw [h1, h1]

/-- Claim C9: the startup migration is idempotent — running
`migrate_table` again on a store that has already been migrated adds no
columns, does not rewrite the `groups` table and re-encrypts no secret
(so re-running after an interruption is safe) — and within a single run
an account row whose secret is already in encrypted-token format is kept
verbatim.  The hypothesis is the Fernet contract that produced tokens
match the encrypted-format marker. -/
theorem migrate_table_idempotent (encryptF : Chars → Chars)
    (hpref : ∀ s, _is_enc (some (encryptF s)) = true) (db : MigDB) :
    migrate_table encryptF (migrate_table encryptF db) = migrate_table encryptF db ∧
      (∀ a ∈ db.accounts, _is_enc a.roblosecurity = true →
        a ∈ (migrate_table encryptF db).accounts) := by
  constructor
  · obtain ⟨cols, gt, accs⟩ := db
    simp only [migrate_table]
    congr 1
    · rw [add_col_of_contains _ _
          (add_col_contains_mono _ _ _ (add_col_contains cols "roblosecurity")),
        add_col_of_contains _ _ (add_col_contains _ _)]
    · cases gt <;> rfl
    · rw [List.map_map]
      exact List.map_congr_left fun a _ => migrate_cookie_idem encryptF hpref a
  · intro a ha henc
    have hf : (cookie_truthy a.roblosecurity && !_is_enc a.roblosecurity) = false := by
      rw [henc]; simp
    show a ∈ db.accounts.map (migrate_cookie encryptF)
    exact List.mem_map.mpr ⟨a, ha, migrate_cookie_of_cond_false encryptF a hf⟩

/-- A pre-migration sample store: legacy schema, a legacy `groups(name)`
table with a duplicated name, one plaintext secret and one
already-encrypted secret. -/
def sampleMigDB : MigDB :=
  { account_cols := ["username", "alias", "profile_path"],
    groups_table := .legacy ["Main".toList, "Alt".toList, "Main".toList],
    accounts :=
      [{ username := "carol".toList, alias_text := none, profile_path := none,
         roblosecurity := some "tok".toList, group_id := none },
       { username := "dave".toList, alias_text := none, profile_path := none,
         roblosecurity := some ['g', 'A', 'A', 'A', 'A', 'x'], group_id := none }] }

/-- Witness for C9 on the sample store with the toy cipher: a second
migration run is a no-op, and the already-encrypted row of "dave" is
kept verbatim by the first run. -/
theorem migrate_table_idempotent_witness :
    migrate_table toyEncrypt (migrate_table toyEncrypt sampleMigDB)
        = migrate_table toyEncrypt sampleMigDB ∧
      ({ username := "dave".toList, alias_text := none, profile_path := none,
         roblosecurity := some ['g', 'A', 'A', 'A', 'A', 'x'], group_id := none } : AccountRow)
        ∈ (migrate_table toyEncrypt sampleMigDB).accounts :=
  ⟨(migrate_table_idempotent toyEncrypt toyEncrypt_marker sampleMigDB).1,
   (migrate_table_idempotent toyEncrypt toyEncrypt_marker sampleMigDB).2
     { username := "dave".toList, alias_text := none, profile_path := none,
       roblosecurity := some ['g', 'A', 'A', 'A', 'A', 'x'], group_id := none }
     (by decide) (by decide)⟩

/- ### Auth-ticket exchange: `_get_auth_ticket` (src/RAMN.py lines 2420-2436) -/

/-- An HTTP request as issued by `_get_auth_ticket`: the endpoint URL,
the session cookies, and the request headers. -/
structure HttpRequest where
  url : String
  cookies : List (String × String)
  headers : List (String × String)
deriving DecidableEq, Repr

/-- An HTTP response, of which only the headers are consumed. -/
structure HttpResponse where
  headers : List (String × String)
deriving DecidableEq, Repr

/-- The two failure conditions of the exchange.  `missingCsrfToken`
models `raise RuntimeError("Failed to obtain CSRF token")`;
`missingTicket` models `raise RuntimeError("Authentication ticket header
missing")`. -/
inductive TicketError where
  | missingCsrfToken
  | missingTicket
deriving DecidableEq, Repr

/-- The first POST of `_get_auth_ticket` (src/RAMN.py lines 2422-2427):
the ticket endpoint, the `.ROBLOSECURITY` session cookie, and the
Referer / Content-Type headers built from the target place. -/
def authReq1 (roblosec place_id : String) : HttpRequest :=
  { url := "https://auth.roblox.com/v1/authentication-ticket/",
    cookies := [(".ROBLOSECURITY", roblosec)],
    headers :=
      [("Referer", "https://www.roblox.com/games/" ++ place_id),
       ("Content-Type", "application/json")] }

/-- The second POST of `_get_auth_ticket` (src/RAMN.py lines 2431-2432):
same endpoint and cookie, with the anti-forgery token added to the
headers dict. -/
def authReq2 (roblosec place_id tok : String) : HttpRequest :=
  { url := "https://auth.roblox.com/v1/authentication-ticket/",
    cookies := [(".ROBLOSECURITY", roblosec)],
    headers :=
      [("Referer", "https://www.roblox.com/games/" ++ place_id),
       ("Content-Type", "application/json"),
       ("X-CSRF-TOKEN", tok)] }

/-- Python truthiness of an optional header value, as tested by `if not
token:` and `if not ticket:` (src/RAMN.py lines 2429, 2434): an absent
header (`headers.get` returning `None`) and a present-but-empty header
value are both falsy. -/
def header_truthy : Option String → Bool
  | none => false
  | some s => !s.isEmpty

/-- `_get_auth_ticket` (src/RAMN.py lines 2420-2436), with the remote
service modelled as a function `server` from the issued request to the
received response.  Returns the outcome together with the list of
requests actually POSTed, in order: POST once and read the
`x-csrf-token` response header, failing with `missingCsrfToken` if it is
absent or empty (`if not token:`, before any second request); otherwise
re-POST with the token attached and read the
`rbx-authentication-ticket` response header, failing with
`missingTicket` if it is absent or empty (`if not ticket:`), and
returning the ticket otherwise. -/
def _get_auth_ticket (server : HttpRequest → HttpResponse)
    (roblosec place_id : String) : Except TicketError String × List HttpRequest :=
  let r1 := server (authReq1 roblosec place_id)
  match r1.headers.lookup "x-csrf-token" with
  | none => (.error .missingCsrfToken, [authReq1 roblosec place_id])
  | some tok =>
    if tok.isEmpty then (.error .missingCsrfToken, [authReq1 roblosec place_id])
    else
      let r2 := server (authReq2 roblosec place_id tok)
      match r2.headers.lookup "rbx-authentication-ticket" with
      | none => (.error .missingTicket,
          [authReq1 roblosec place_id, authReq2 roblosec place_id tok])
      | some ticket =>
        if ticket.isEmpty then (.error .missingTicket,
            [authReq1 roblosec place_id, authReq2 roblosec place_id tok])
        else (.ok ticket,
            [authReq1 roblosec place_id, authReq2 roblosec place_id tok])

/-- Claim C6: if the first POST's response lacks a usable anti-forgery
token header (absent, or present but empty — Python's `if not token:`),
the exchange fails with the MissingCsrfToken condition having issued
only the first request (the second POST is never attempted); if the
first response provides a (nonempty) token but the second response
lacks a usable ticket header, it fails with the MissingTicket
condition; otherwise the extracted ticket is returned. -/
theorem get_auth_ticket_spec (server : HttpRequest → HttpResponse)
    (roblosec place_id : String) :
    (header_truthy ((server (authReq1 roblosec place_id)).headers.lookup "x-csrf-token")
          = false →
        _get_auth_ticket server roblosec place_id
          = (.error .missingCsrfToken, [authReq1 roblosec place_id])) ∧
      (∀ tok,
        (server (authReq1 roblosec place_id)).headers.lookup "x-csrf-token" = some tok →
          tok.isEmpty = false →
          ((header_truthy ((server (authReq2 roblosec place_id tok)).headers.lookup
                  "rbx-authentication-ticket") = false →
              _get_auth_ticket server roblosec place_id
                = (.error .missingTicket,
                    [authReq1 roblosec place_id, authReq2 roblosec place_id tok])) ∧
            (∀ ticket,
              (server (authReq2 roblosec place_id tok)).headers.lookup
                  "rbx-authentication-ticket" = some ticket →
                ticket.isEmpty = false →
                _get_auth_ticket server roblosec place_id
                  = (.ok ticket,
                      [authReq1 roblosec place_id, authReq2 roblosec place_id tok])))) := by
  refine ⟨?_, ?_⟩
  · intro h1
    cases hl : (server (authReq1 roblosec place_id)).headers.lookup "x-csrf-token" with
    | none => simp only [_get_auth_ticket, hl]
    | some tok =>
      rw [hl] at h1
      have he : tok.isEmpty = true := by
        simpa [header_truthy] using h1
      simp [_get_auth_ticket, hl, he]
  · intro tok h1 hne
    refine ⟨?_, ?_⟩
    · intro h2
      cases hl2 : (server (authReq2 roblosec place_id tok)).headers.lookup
          "rbx-authentication-ticket" with
      | none => simp [_get_auth_ticket, h1, hne, hl2]
      | some t =>
        rw [hl2] at h2
        have he2 : t.isEmpty = true := by
          simpa [header_truthy] using h2
        simp [_get_auth_ticket, h1, hne, hl2, he2]
    · intro ticket h2 hne2
      simp [_get_auth_ticket, h1, hne, h2, hne2]

/-- A sample server whose first response never carries the anti-forgery
header. -/
def serverNoCsrf : HttpRequest → HttpResponse := fun _ => { headers := [] }

/-- A sample server whose first response carries the anti-forgery header
with an empty value (present but falsy under `if not token:`). -/
def serverEmptyCsrf : HttpRequest → HttpResponse := fun _ =>
  { headers := [("x-csrf-token", "")] }

/-- A sample server that returns the anti-forgery token T on a request
without the `X-CSRF-TOKEN` header and the ticket TICKET once the token
is attached. -/
def serverHappy : HttpRequest → HttpResponse := fun req =>
  match req.headers.lookup "X-CSRF-TOKEN" with
  | none => { headers := [("x-csrf-token", "T")] }
  | some _ => { headers := [("rbx-authentication-ticket", "TICKET")] }

/-- Witness for C6: against `serverNoCsrf` (header absent) and
`serverEmptyCsrf` (header present but empty) the exchange fails with
MissingCsrfToken after exactly one request; against `serverHappy` it
returns the ticket after the two requests. -/
theorem get_auth_ticket_spec_witness :
    (_get_auth_ticket serverNoCsrf "c" "1"
        = (.error .missingCsrfToken, [authReq1 "c" "1"])) ∧
      (_get_auth_ticket serverEmptyCsrf "c" "1"
        = (.error .missingCsrfToken, [authReq1 "c" "1"])) ∧
      (_get_auth_ticket serverHappy "c" "1"
        = (.ok "TICKET", [authReq1 "c" "1", authReq2 "c" "1" "T"])) :=
  ⟨(get_auth_ticket_spec serverNoCsrf "c" "1").1 (by rfl),
   (get_auth_ticket_spec serverEmptyCsrf "c" "1").1 (by rfl),
   (((get_auth_ticket_spec serverHappy "c" "1").2 "T" (by rfl) (by rfl)).2 "TICKET"
     (by rfl)) (by rfl)⟩

/- ### Launch descriptor: `_build_roblox_player_uri`
(src/RAMN.py lines 2451-2470) -/

/-- Uppercase hexadecimal digit, as `urllib.parse.quote` emits. -/
def hexUpper (n : Nat) : Char :=
  if n < 10 then Char.ofNat (48 + n) else Char.ofNat (55 + n)

/-- UTF-8 encoding of one character, as a list of byte values. -/
def utf8Bytes (c : Char) : List Nat :=
  if c.toNat < 128 then [c.toNat]
  else if c.toNat < 2048 then [192 + c.toNat / 64, 128 + c.toNat % 64]
  else if c.toNat < 65536 then
    [224 + c.toNat / 4096, 128 + c.toNat / 64 % 64, 128 + c.toNat % 64]
  else
    [240 + c.toNat / 262144, 128 + c.toNat / 4096 % 64, 128 + c.toNat / 64 % 64,
      128 + c.toNat % 64]

/-- `%XX` percent-escape of one byte, uppercase hex. -/
def percentByte (b : Nat) : Chars := ['%', hexUpper (b / 16), hexUpper (b % 16)]

/-- `urllib.parse.quote_plus` on one character with the default empty
safe set: ASCII alphanumerics and `_.-~` kept, space mapped to `+`,
everything else percent-escaped byte by byte. -/
def quotePlusChar (c : Char) : Chars :=
  if c.isAlphanum || c = '_' || c = '.' || c = '-' || c = '~' then [c]
  else if c = ' ' then ['+']
  else (utf8Bytes c).flatMap percentByte

/-- `urllib.parse.quote_plus` (default safe set) over a string. -/
def quote_plus (s : Chars) : Chars := s.flatMap quotePlusChar

/-- Python `"+".join(parts)`. -/
def joinPlus : List Chars → Chars
  | [] => []
  | [p] => p
  | p :: rest => p ++ ('+' :: joinPlus rest)

/-- `_build_roblox_player_uri` (src/RAMN.py lines 2451-2470), with the
millisecond launch timestamp and the random six-digit browser tracker id
taken as parameters: the ordered params dict is rendered as `key:value`
segments after a leading `1` segment, joined with `+` and prefixed with
the `roblox-player:` scheme. -/
def _build_roblox_player_uri (ticket place_id : Chars)
    (launch_time browser_tracker : Nat) : Chars :=
  let place_launcher_url :=
    "https://assetgame.roblox.com/game/PlaceLauncher.ashx?request=RequestGame&placeId=".toList
      ++ place_id
  let params : List (Chars × Chars) :=
    [("launchmode".toList, "play".toList),
     ("gameinfo".toList, ticket),
     ("launchtime".toList, (toString launch_time).toList),
     ("placelauncherurl".toList, quote_plus place_launcher_url),
     ("browsertrackerid".toList, (toString browser_tracker).toList),
     ("robloxLocale".toList, "en_us".toList),
     ("gameLocale".toList, "en_us".toList),
     ("channel".toList, []),
     ("LaunchExp".toList, "InApp".toList)]
  "roblox-player:".toList ++ joinPlus ("1".toList :: params.map fun kv => kv.1 ++ (':' :: kv.2))

/-- The launch descriptor as the specification words it: the
`roblox-player:` prefix, the leading `1` segment, then the fixed ordered
fields — launch mode, ticket, millisecond timestamp, the escaped inner
place-launcher URL embedding the place id, the tracker id, the two
locale fields, the empty channel and the client-experience flag — each
rendered as `key:value` and separated by `+`. -/
def launch_descriptor_spec (ticket place_id : Chars)
    (launch_time browser_tracker : Nat) : Chars :=
  "roblox-player:1+launchmode:play+gameinfo:".toList ++ ticket
    ++ "+launchtime:".toList ++ (toString launch_time).toList
    ++ "+placelauncherurl:".toList
    ++ quote_plus
      ("https://assetgame.roblox.com/game/PlaceLauncher.ashx?request=RequestGame&placeId=".toList
        ++ place_id)
    ++ "+browsertrackerid:".toList ++ (toString browser_tracker).toList
    ++ "+robloxLocale:en_us+gameLocale:en_us+channel:+LaunchExp:InApp".toList

/-- Claim C8: for every ticket and place identifier (and every timestamp
and tracker draw), the constructed launch descriptor is exactly the
fixed-order, fixed-delimiter rendering stated by the specification. -/
theorem build_roblox_player_uri_spec (ticket place_id : Chars)
    (launch_time browser_tracker : Nat) :
    _build_roblox_player_uri ticket place_id launch_time browser_tracker
      = launch_descriptor_spec ticket place_id launch_time browser_tracker := by
  show "roblox-player:".toList
      ++ joinPlus ("1".toList ::
        ([("launchmode".toList, "play".toList),
          ("gameinfo".toList, ticket),
          ("launchtime".toList, (toString launch_time).toList),
          ("placelauncherurl".toList, quote_plus
            ("https://assetgame.roblox.com/game/PlaceLauncher.ashx?request=RequestGame&placeId=".toList
              ++ place_id)),
          ("browsertrackerid".toList, (toString browser_tracker).toList),
          ("robloxLocale".toList, "en_us".toList),
          ("gameLocale".toList, "en_us".toList),
          ("channel".toList, []),
          ("LaunchExp".toList, "InApp".toList)].map fun kv => kv.1 ++ (':' :: kv.2)))
      = launch_descriptor_spec ticket place_id launch_time browser_tracker
  simp only [List.map_cons, List.map_nil, joinPlus, launch_descriptor_spec]
  simp [List.append_assoc]
